import Mathlib

/-!
Shallow embedding of the fdroid-rs repository-orchestration library
(src/error.rs, src/repository/{mod,app,config,paths}.rs), together with
theorems settling the specification claims about it.

Filesystem paths are modelled as lists of components; file contents as
strings; the external `fdroid` tool as boolean outcome oracles carried in
the modelled state; fallible Rust functions returning `Result<T>` become
`Except Error T`.
-/

/-- A filesystem path, as its list of components (PathBuf::join appends). -/
abbrev FsPath := List String

/-- Embedding of struct InvalidFile from src/error.rs: the invalid file's
path plus an optional human-readable reason. -/
structure InvalidFile where
  reason : Option String
  file : FsPath
deriving DecidableEq

/-- Embedding of enum Error from src/error.rs.  The payloads of the
`File` and `YAMLConvert` variants (io::Error, serde_yaml::Error) are
opaque to this library, so they are modelled without payload. -/
inductive Error where
  | file
  | yamlConvert
  | jsonConvert (msg : String)
  | notADirectory (path : FsPath)
  | notAFile (path : FsPath)
  | init
  | update
  | run (command : String)
  | invalidFile (inner : InvalidFile)
deriving DecidableEq

/-! ## JSON values (serde_json::Value) -/

/-- Model of serde_json::Value.  Numbers are modelled as unbounded
integers (serde_json stores i64/u64; the `as_i64`/`as_u64` accessors
below perform the range checks); non-integer (float) numbers are the
`float` constructor, on which both integer accessors fail. -/
inductive Json where
  | null
  | bool (b : Bool)
  | int (n : Int)
  | float
  | str (s : String)
  | arr (elems : List Json)
  | obj (fields : List (String × Json))

/-- Key lookup in a JSON object's field list (first match). -/
def lookupField : List (String × Json) → String → Option Json
  | [], _ => none
  | (k, v) :: rest, key => if k = key then some v else lookupField rest key

/-- Value::get with a string key: field lookup on objects, None otherwise. -/
def Json.get : Json → String → Option Json
  | .obj fields, key => lookupField fields key
  | _, _ => none

/-- Value::get with a usize index: element lookup on arrays, None otherwise. -/
def Json.getIdx : Json → Nat → Option Json
  | .arr elems, i => elems.get? i
  | _, _ => none

/-- Value::as_str. -/
def Json.as_str : Json → Option String
  | .str s => some s
  | _ => none

/-- Value::as_i64: integer numbers representable as i64. -/
def Json.as_i64 : Json → Option Int
  | .int n => if -(2 ^ 63) ≤ n ∧ n < 2 ^ 63 then some n else none
  | _ => none

/-- Value::as_u64: integer numbers representable as u64 (as a Nat). -/
def Json.as_u64 : Json → Option Nat
  | .int n => if 0 ≤ n ∧ n < 2 ^ 64 then some n.toNat else none
  | _ => none

/-- Value::as_array. -/
def Json.as_array : Json → Option (List Json)
  | .arr elems => some elems
  | _ => none

/-! ## Categories (crate::metadata::Category) -/

/-- Modelled from the spec: the well-known enumerated category labels of
`crate::metadata::Category` (src/repository/metadata.rs is not among the
provided sources; the spec only says categories are "either a well-known
enumerated category or an arbitrary custom label").  The concrete label
set is irrelevant to every claim below. -/
def knownCategories : List String :=
  ["Connectivity", "Development", "Games", "Graphics", "Internet",
   "Money", "Multimedia", "Navigation", "Reading", "Security",
   "System", "Theming", "Time", "Writing"]

/-- Modelled from the spec: a category is either a well-known enumerated
category (kept as its label) or an arbitrary custom label. -/
inductive Category where
  | known (label : String)
  | custom (label : String)
deriving DecidableEq

/-- Modelled from the spec: serde deserialization of Category succeeds
exactly on JSON strings carrying a well-known label. -/
def Category.deserialize (v : Json) : Option Category :=
  match v.as_str with
  | some s => if s ∈ knownCategories then some (.known s) else none
  | none => none

/-! ## Package (src/repository/app.rs, Package::from_json) -/

/-- Embedding of struct Package from src/repository/app.rs.  u64 becomes
Nat, i64 becomes Int, u32 option fields become Option Nat (the
`try_into` range checks live in the parser). -/
structure Package where
  added : Int
  apk_name : String
  hash : String
  hash_type : String
  package_name : String
  size : Nat
  version_name : String
  nativecode : List String
  max_sdk_version : Option Nat
  min_sdk_version : Option Nat
  sig : Option String
  signer : Option String
  target_sdk_version : Option Nat
  uses_permission : List (String × Option Nat)
  version_code : Option Nat
deriving DecidableEq

/-- The optional-u32 extraction pattern of Package::from_json:
`value.get(key).and_then(as_u64).and_then(try_into::<u32>)`. -/
def optU32 (value : Json) (key : String) : Option Nat :=
  ((value.get key).bind Json.as_u64).bind
    (fun n => if n < 2 ^ 32 then some n else none)

/-- The nativecode loop of Package::from_json: every entry must be a
string (`as_str()?`), collected in order. -/
def parseNativecode : List Json → Option (List String)
  | [] => some []
  | e :: rest => do
      let s ← e.as_str
      let rest' ← parseNativecode rest
      pure (s :: rest')

/-- The uses-permission loop of Package::from_json: each entry must have
an element at index 0 that is a string and an element at index 1 (of any
type); the second component is `as_i64` then `try_into::<u32>`, with
failure mapped to None. -/
def parsePermissions : List Json → Option (List (String × Option Nat))
  | [] => some []
  | e :: rest => do
      let name ← (e.getIdx 0).bind Json.as_str
      let snd ← e.getIdx 1
      let maxVer := snd.as_i64.bind
        (fun n => if 0 ≤ n ∧ n < 2 ^ 32 then some n.toNat else none)
      let rest' ← parsePermissions rest
      pure ((name, maxVer) :: rest')

/-- Embedding of Package::from_json (src/repository/app.rs lines
129-212), field by field in source order: the seven required fields use
`get(..)?.as_X()?`; the optional scalar fields use non-failing
`and_then` chains; the two list fields default a non-array (or absent)
value to the empty list but fail on an ill-typed element. -/
def Package.from_json (value : Json) : Option Package := do
  let added ← (value.get "added").bind Json.as_i64
  let apk_name ← (value.get "apkName").bind Json.as_str
  let hash ← (value.get "hash").bind Json.as_str
  let hash_type ← (value.get "hashType").bind Json.as_str
  let package_name ← (value.get "packageName").bind Json.as_str
  let size ← (value.get "size").bind Json.as_u64
  let version_name ← (value.get "versionName").bind Json.as_str
  let max_sdk_version := optU32 value "maxSdkVersion"
  let min_sdk_version := optU32 value "minSdkVersion"
  let nativecode ←
    parseNativecode (((value.get "nativecode").bind Json.as_array).getD [])
  let sig := (value.get "sig").bind Json.as_str
  let signer := (value.get "signer").bind Json.as_str
  let target_sdk_version := optU32 value "targetSdkVersion"
  let uses_permission ←
    parsePermissions ((((value.get "uses-permission").getD Json.null).as_array).getD [])
  let version_code := (value.get "versionCode").bind Json.as_u64
  pure {
    added, apk_name, hash, hash_type, package_name, size, version_name,
    nativecode, max_sdk_version, min_sdk_version, sig, signer,
    target_sdk_version, uses_permission, version_code }

/-! ## App (src/repository/app.rs, App::from_json) -/

/-- Embedding of struct App from src/repository/app.rs. -/
structure App where
  package_name : String
  categories : List Category
  suggested_version_code : String
  license : String
  name : String
  added : Int
  last_updated : Int
  packages : List Package
deriving DecidableEq

/-- The categories loop of App::from_json.  Rust's
`Category::deserialize(c).unwrap_or(Category::Custom(c.as_str()?...))`
evaluates the `unwrap_or` argument eagerly, so `as_str()?` runs (and can
abort the whole parse) even before the deserialization result is
inspected. -/
def parseCategories : List Json → Option (List Category)
  | [] => some []
  | c :: rest => do
      let s ← c.as_str
      let cat := (Category.deserialize c).getD (Category.custom s)
      let rest' ← parseCategories rest
      pure (cat :: rest')

/-- The packages loop of App::from_json: every entry of the app's
package array must parse. -/
def parsePackages : List Json → Option (List Package)
  | [] => some []
  | e :: rest => do
      let p ← Package.from_json e
      let rest' ← parsePackages rest
      pure (p :: rest')

/-- The body of App::from_json's per-app loop (src/repository/app.rs
lines 60-97): the seven required fields in source order, then the
categories loop, then the package-list lookup keyed by packageName in
the top-level packages mapping, then the packages loop. -/
def App.parseOne (packages : Json) (app : Json) : Option App := do
  let name ← (app.get "name").bind Json.as_str
  let suggested_version_code ← (app.get "suggestedVersionCode").bind Json.as_str
  let license ← (app.get "license").bind Json.as_str
  let package_name ← (app.get "packageName").bind Json.as_str
  let last_updated ← (app.get "lastUpdated").bind Json.as_i64
  let added ← (app.get "added").bind Json.as_i64
  let catsJson ← (app.get "categories").bind Json.as_array
  let categories ← parseCategories catsJson
  let pkgList ← packages.get package_name
  let pkgArr ← pkgList.as_array
  let packages_vec ← parsePackages pkgArr
  pure {
    name, suggested_version_code, license, package_name, last_updated,
    added, packages := packages_vec, categories }

/-- The top-level app loop of App::from_json. -/
def parseApps (packages : Json) : List Json → Option (List App)
  | [] => some []
  | a :: rest => do
      let app ← App.parseOne packages a
      let rest' ← parseApps packages rest
      pure (app :: rest')

/-- Embedding of App::from_json (src/repository/app.rs lines 52-100):
fetch the top-level "apps" and "packages" collections, then map every
entry of the apps array; any failure makes the whole parse fail. -/
def App.from_json (value : Json) : Option (List App) := do
  let apps ← value.get "apps"
  let packages ← value.get "packages"
  let appsArr ← apps.as_array
  parseApps packages appsArr

/-! ## Repository::apps (src/repository/app.rs lines 218-237) -/

/-- State of the index file repo/index-v1.json on disk: absent, present
but not valid JSON, or present and decoding to a JSON document. -/
inductive IndexFile where
  | absent
  | invalid
  | valid (doc : Json)

/-- Embedding of Repository::apps: an absent index file yields Ok(vec![]);
a file that serde_json cannot parse yields the "read" JsonConvert error;
a parsed document that App::from_json cannot map yields the "map"
JsonConvert error; otherwise the app list. -/
def Repository.apps (index : IndexFile) : Except Error (List App) :=
  match index with
  | .absent => .ok []
  | .invalid => .error (.jsonConvert "Could not read repository index file!")
  | .valid doc =>
      match App.from_json doc with
      | some apps => .ok apps
      | none => .error (.jsonConvert "Could not map repository index file!")

/-! ## Configuration (src/repository/config.rs) -/

/-- Embedding of struct ConfigFile (src/repository/config.rs lines
14-45): the full on-disk config.yml document, immutable part first,
then the changeable part. -/
structure ConfigFile where
  sdk_path : String
  repo_keyalias : String
  keystore : String
  keystorepass : String
  keypass : String
  keydname : String
  repo_url : Option String
  repo_name : Option String
  repo_icon : Option String
  repo_description : Option String
  apksigner : Option String
  archive_url : Option String
  archive_name : Option String
  archive_icon : Option String
  archive_description : Option String
  archive_older : Option Nat
deriving DecidableEq

/-- Embedding of struct Config (src/repository/config.rs lines 75-87):
the public, mutable view of the configuration. -/
structure Config where
  repo_url : Option String
  repo_name : Option String
  repo_icon : Option String
  repo_description : Option String
  archive_url : Option String
  archive_name : Option String
  archive_icon : Option String
  archive_description : Option String
  archive_older : Option Nat
deriving DecidableEq

/-- Embedding of ConfigFile::merge_with_public (src/repository/config.rs
lines 49-68): the immutable fields (including apksigner) are cloned from
self, the public fields are taken from the argument. -/
def ConfigFile.merge_with_public (self : ConfigFile) (pub : Config) : ConfigFile :=
  { sdk_path := self.sdk_path
    repo_keyalias := self.repo_keyalias
    keystore := self.keystore
    keystorepass := self.keystorepass
    keypass := self.keypass
    keydname := self.keydname
    apksigner := self.apksigner
    repo_url := pub.repo_url
    repo_name := pub.repo_name
    repo_icon := pub.repo_icon
    archive_icon := pub.archive_icon
    repo_description := pub.repo_description
    archive_description := pub.archive_description
    archive_name := pub.archive_name
    archive_older := pub.archive_older
    archive_url := pub.archive_url }

/-- Embedding of the From<ConfigFile> for Config impl
(src/repository/config.rs lines 89-103). -/
def Config.ofConfigFile (value : ConfigFile) : Config :=
  { repo_url := value.repo_url
    repo_name := value.repo_name
    repo_icon := value.repo_icon
    repo_description := value.repo_description
    archive_url := value.archive_url
    archive_name := value.archive_name
    archive_icon := value.archive_icon
    archive_description := value.archive_description
    archive_older := value.archive_older }

/-- The immutable-field projection of a ConfigFile, used to state
frame conditions (the seven fields merge_with_public clones from self). -/
def ConfigFile.immutables (c : ConfigFile) :
    String × String × String × String × String × String × Option String :=
  (c.sdk_path, c.repo_keyalias, c.keystore, c.keystorepass, c.keypass,
   c.keydname, c.apksigner)

/-- On-disk state of config.yml: missing, present but not decodable as a
ConfigFile, or decodable. -/
inductive ConfigStore where
  | missing
  | undecodable
  | decoded (c : ConfigFile)
deriving DecidableEq

/-- Embedding of Repository::get_config (src/repository/config.rs lines
183-187): read the file (io::Error on a missing file) and deserialize it
(serde_yaml error on a malformed one). -/
def Repository.get_config : ConfigStore → Except Error ConfigFile
  | .missing => .error .file
  | .undecodable => .error .yamlConvert
  | .decoded c => .ok c

/-- Embedding of Repository::config (src/repository/config.rs lines
110-112): get_config mapped through the Config projection. -/
def Repository.config (store : ConfigStore) : Except Error Config :=
  (Repository.get_config store).map Config.ofConfigFile

/-- Embedding of Repository::set_config plus its write_to_config helper
(src/repository/config.rs lines 115-122 and 190-199): read the current
full document, merge the public fields into it, serialize and write the
merged document, then run the repository update; a failing update still
leaves the merged document written.  The external update outcome is the
updateOk oracle; serialization of a ConfigFile never fails. -/
def Repository.set_config (store : ConfigStore) (updateOk : Bool)
    (pub : Config) : Except Error Unit × ConfigStore :=
  match Repository.get_config store with
  | .error e => (.error e, store)
  | .ok configFile =>
      let merged := configFile.merge_with_public pub
      ((if updateOk then .ok () else .error .update), .decoded merged)

/-! ## Repository image (src/repository/config.rs, set_image/image_path) -/

/-- The characters after the last dot of a file name, None when no dot
occurs. -/
def extCore : List Char → Option (List Char)
  | [] => none
  | c :: rest =>
      match extCore rest with
      | some e => some e
      | none => if c = '.' then some rest else none

/-- Path::extension of a file name, per the Rust contract: the portion
after the last dot, None when there is no dot or when the file name
begins with its only dot. -/
def rustExtension (name : String) : Option String :=
  match name.data with
  | [] => none
  | c :: rest =>
      if c = '.' then (extCore rest).map (fun e => String.mk e)
      else (extCore (c :: rest)).map (fun e => String.mk e)

/-- Association-list update: replace the value at the key, or append the
binding (models fs::copy overwriting or creating the target file). -/
def setEntry {α : Type} : List (String × α) → String → α → List (String × α)
  | [], key, v => [(key, v)]
  | (k, old) :: rest, key, v =>
      if k = key then (k, v) :: rest else (k, old) :: setEntry rest key v

/-- Association-list lookup for file contents. -/
def lookupEntry {α : Type} : List (String × α) → String → Option α
  | [], _ => none
  | (k, v) :: rest, key => if k = key then some v else lookupEntry rest key

/-- State for the image operations: the config.yml store plus the
contents of the repo/icons directory (file name to file bytes). -/
structure ImageState where
  config : ConfigStore
  icons : List (String × String)
deriving DecidableEq

/-- The configured icon file name: repo_icon, defaulting to icon.png
(src/repository/config.rs lines 170-177). -/
def iconName (c : ConfigFile) : String := c.repo_icon.getD "icon.png"

/-- Embedding of Repository::image_path (src/repository/config.rs lines
170-177): repo/icons/ joined with the configured icon name. -/
def Repository.image_path (store : ConfigStore) : Except Error FsPath :=
  (Repository.get_config store).map
    (fun c => ["repo", "icons", iconName c])

/-- The reason string of the extension-mismatch error in set_image:
format("Image type should be: {:?}", current_image_type), where the
Debug rendering of an OsStr wraps it in double quotes. -/
def extensionReason (ext : String) : String :=
  "Image type should be: \"" ++ ext ++ "\""

/-- Embedding of Repository::set_image (src/repository/config.rs lines
134-167), acting on the new image's file name and contents: resolve the
icon path from the config; require an extension on the new file and on
the configured icon name; on mismatch fail with the InvalidFile error
naming the expected extension; on match copy the new file over the icon
path, overwriting it. -/
def Repository.set_image (st : ImageState) (newName newContent : String) :
    Except Error Unit × ImageState :=
  match Repository.get_config st.config with
  | .error e => (.error e, st)
  | .ok c =>
      match rustExtension newName with
      | none =>
          (.error (.invalidFile
            ⟨some "Image does not have a file type", [newName]⟩), st)
      | some newExt =>
          match rustExtension (iconName c) with
          | none =>
              (.error (.invalidFile
                ⟨some "Image does not have a file name", [newName]⟩), st)
          | some curExt =>
              if newExt ≠ curExt then
                (.error (.invalidFile
                  ⟨some (extensionReason curExt), [newName]⟩), st)
              else
                (.ok (), { st with
                  icons := setEntry st.icons (iconName c) newContent })

/-! ## Package-directory filesystem (src/repository/app.rs, add_app/delete_app) -/

/-- Kind and content of an entry in the repo/ package directory: a
regular file with its bytes, or a directory. -/
inductive RepoEntry where
  | fileE (content : String)
  | dirE
deriving DecidableEq

/-- Association-list removal of a key (models fs::remove_file). -/
def removeEntry {α : Type} : List (String × α) → String → List (String × α)
  | [], _ => []
  | (k, v) :: rest, key =>
      if k = key then rest else (k, v) :: removeEntry rest key

/-- State for the package lifecycle operations: the entries of the repo/
package directory, plus the outcome oracle for the external
`fdroid update` sequence run by Repository::update. -/
structure RepoFs where
  repoEntries : List (String × RepoEntry)
  updateOk : Bool
deriving DecidableEq

/-- The result of Repository::update as seen by its callers
(src/repository/mod.rs lines 84-89): Ok, or the Update error. -/
def updateResult (st : RepoFs) : Except Error Unit :=
  if st.updateOk then .ok () else .error .update

/-- Embedding of Repository::add_app (src/repository/app.rs lines
240-268) for a source file with the given name and contents, in the
scenario where the copy into repo/ succeeds: copy the file (overwriting
a same-named entry), run update, and if update failed and the copied
path is an existing regular file, remove it again; the function then
returns Ok(()) regardless of the update outcome. -/
def Repository.add_app (st : RepoFs) (srcName srcContent : String) :
    Except Error Unit × RepoFs :=
  let copied := setEntry st.repoEntries srcName (.fileE srcContent)
  let afterUpdate :=
    if (updateResult st).isOk then copied
    else
      match lookupEntry copied srcName with
      | some (.fileE _) => removeEntry copied srcName
      | _ => copied
  (.ok (), { st with repoEntries := afterUpdate })

/-- Embedding of Repository::delete_app (src/repository/app.rs lines
271-291): a missing entry is an Ok no-op; an entry that is not a regular
file fails with NotAFile and deletes nothing; a regular file is removed
and then update runs, its error surfacing with no re-adding of the
file. -/
def Repository.delete_app (st : RepoFs) (apkName : String) :
    Except Error Unit × RepoFs :=
  match lookupEntry st.repoEntries apkName with
  | none => (.ok (), st)
  | some .dirE => (.error (.notAFile ["repo", apkName]), st)
  | some (.fileE _) =>
      let st' := { st with repoEntries := removeEntry st.repoEntries apkName }
      (updateResult st, st')

/-! ## Path resolvers (src/repository/paths.rs) -/

/-- Kind of the disk entry currently at a resolved path. -/
inductive DiskEntry where
  | absentE
  | fileE
  | dirE
deriving DecidableEq

/-- Embedding of Repository::repo_path (src/repository/paths.rs lines
52-54): a pure join of the root with "repo"; it consults nothing. -/
def Repository.repo_path : FsPath := ["repo"]

/-- Embedding of Repository::metadata_path (src/repository/paths.rs
lines 26-28): a pure join of the root with "metadata". -/
def Repository.metadata_path : FsPath := ["metadata"]

/-- Embedding of Repository::config_path (src/repository/paths.rs lines
19-21): a pure join of the root with "config.yml". -/
def Repository.config_path : FsPath := ["config.yml"]

/-- Embedding of Repository::keystore_path (src/repository/paths.rs
lines 12-14): a pure join of the root with "keystore.p12". -/
def Repository.keystore_path : FsPath := ["keystore.p12"]

/-- Embedding of Repository::unsigned_path (src/repository/paths.rs
lines 35-49) as a function of the disk entry at root/unsigned, returning
the result, the entry afterwards, and whether the directory was created:
an existing directory is returned as is; an existing non-directory fails
with NotADirectory; an absent entry is created as a directory. -/
def Repository.unsigned_path (e : DiskEntry) :
    Except Error FsPath × DiskEntry × Bool :=
  match e with
  | .dirE => (.ok ["unsigned"], .dirE, false)
  | .fileE => (.error (.notADirectory ["unsigned"]), .fileE, false)
  | .absentE => (.ok ["unsigned"], .dirE, true)

/-- Resolution of the package directory as the claim frames it: a
function of the disk entry at root/repo returning a fallible result.
The source resolver is the pure join Repository.repo_path, so this is
constantly Ok and ignores the disk. -/
def repoPathResolved (_ : DiskEntry) : Except Error FsPath :=
  .ok Repository.repo_path

/-- Resolution of the metadata directory as the claim frames it; the
source resolver is a pure join, so this is constantly Ok. -/
def metadataPathResolved (_ : DiskEntry) : Except Error FsPath :=
  .ok Repository.metadata_path

/-- Resolution of the configuration file as the claim frames it; the
source resolver is a pure join, so this is constantly Ok. -/
def configPathResolved (_ : DiskEntry) : Except Error FsPath :=
  .ok Repository.config_path

/-! ## Repository::new (src/repository/mod.rs lines 46-60) -/

/-- State for Repository::new: whether the provided root is a directory,
whether config.yml exists, and the outcome oracles of the external
commands that initialization would run (`fdroid init`,
`fdroid update -c`, `fdroid update`). -/
structure NewState where
  rootIsDir : Bool
  configExists : Bool
  initOk : Bool
  updateCleanOk : Bool
  updatePlainOk : Bool
deriving DecidableEq

/-- Embedding of Repository::update (src/repository/mod.rs lines 84-89)
with the trace of external commands attempted: run `fdroid update -c`,
then `fdroid update`, mapping either failure to the Update error. -/
def Repository.updateRun (st : NewState) : Except Error Unit × List String :=
  if !st.updateCleanOk then (.error .update, ["fdroid update -c"])
  else if !st.updatePlainOk then
    (.error .update, ["fdroid update -c", "fdroid update"])
  else (.ok (), ["fdroid update -c", "fdroid update"])

/-- Embedding of Repository::initialize (src/repository/mod.rs lines
68-74) with its command trace: run `fdroid init`, mapping failure to the
Init error, then update. -/
def Repository.initRepo (st : NewState) : Except Error Unit × List String :=
  if !st.initOk then (.error .init, ["fdroid init"])
  else
    let u := Repository.updateRun st
    (u.1, "fdroid init" :: u.2)

/-- Embedding of Repository::new (src/repository/mod.rs lines 46-60)
with its command trace: reject a root that is not a directory; when
config.yml is absent run initialize; otherwise return the handle having
run nothing. -/
def Repository.new (st : NewState) : Except Error Unit × List String :=
  if !st.rootIsDir then (.error (.notADirectory []), [])
  else if !st.configExists then Repository.initRepo st
  else (.ok (), [])

/-! ## Claim-level predicates and concrete fixtures -/

/-- The required-field check of App::from_json's per-app loop: each of
the seven required fields is present and of the right primitive kind
(the exact accessor chain the source applies to it succeeds). -/
def appRequiredOk (app : Json) : Prop :=
  ((app.get "name").bind Json.as_str).isSome = true ∧
  ((app.get "suggestedVersionCode").bind Json.as_str).isSome = true ∧
  ((app.get "license").bind Json.as_str).isSome = true ∧
  ((app.get "packageName").bind Json.as_str).isSome = true ∧
  ((app.get "lastUpdated").bind Json.as_i64).isSome = true ∧
  ((app.get "added").bind Json.as_i64).isSome = true ∧
  ((app.get "categories").bind Json.as_array).isSome = true

instance (app : Json) : Decidable (appRequiredOk app) := by
  unfold appRequiredOk; infer_instance

/-- The required-field check of Package::from_json: each of the seven
required Package fields is present and of the right primitive kind. -/
def pkgRequiredOk (value : Json) : Prop :=
  ((value.get "added").bind Json.as_i64).isSome = true ∧
  ((value.get "apkName").bind Json.as_str).isSome = true ∧
  ((value.get "hash").bind Json.as_str).isSome = true ∧
  ((value.get "hashType").bind Json.as_str).isSome = true ∧
  ((value.get "packageName").bind Json.as_str).isSome = true ∧
  ((value.get "size").bind Json.as_u64).isSome = true ∧
  ((value.get "versionName").bind Json.as_str).isSome = true

instance (value : Json) : Decidable (pkgRequiredOk value) := by
  unfold pkgRequiredOk; infer_instance

/-- The element-level condition of the nativecode loop: every entry of
the nativecode array (the empty list when the field is absent or not an
array) is a string.  Package::from_json fails exactly when this is
violated among the optional list fields. -/
def ncElemsOk (value : Json) : Prop :=
  ∀ e ∈ (((value.get "nativecode").bind Json.as_array).getD []),
    (Json.as_str e).isSome = true

instance (value : Json) : Decidable (ncElemsOk value) := by
  unfold ncElemsOk; infer_instance

/-- The element-level condition of the uses-permission loop: every entry
of the uses-permission array (the empty list when the field is absent or
not an array) has a string at index 0 and some element at index 1. -/
def permElemsOk (value : Json) : Prop :=
  ∀ e ∈ ((((value.get "uses-permission").getD Json.null).as_array).getD []),
    ((e.getIdx 0).bind Json.as_str).isSome = true ∧ (e.getIdx 1).isSome = true

instance (value : Json) : Decidable (permElemsOk value) := by
  unfold permElemsOk; infer_instance

/-- An app entry with every required field except license. -/
def missingLicenseApp : Json :=
  .obj [
    ("name", .str "Example"),
    ("suggestedVersionCode", .str "7"),
    ("packageName", .str "org.example.app"),
    ("lastUpdated", .int 1700000000000),
    ("added", .int 1690000000000),
    ("categories", .arr [.str "Internet"])]

/-- An index document whose single app entry has every required field
except license (used to exercise the whole-parse failure). -/
def missingLicenseDoc : Json :=
  .obj [
    ("apps", .arr [missingLicenseApp]),
    ("packages", .obj [("org.example.app", .arr [])])]

/-- A package entry whose required fields are all well-formed but whose
optional nativecode array contains a non-string element. -/
def badNativecodePkg : Json :=
  .obj [
    ("added", .int 1690000000000),
    ("apkName", .str "app.apk"),
    ("hash", .str "deadbeef"),
    ("hashType", .str "sha256"),
    ("packageName", .str "org.example.app"),
    ("size", .int 1024),
    ("versionName", .str "1.0"),
    ("nativecode", .arr [.int 1])]

/-- A package entry with all required fields valid, no signer field, and
every other optional field present and well-formed (the spec's "no
signer, all other fields populated" case). -/
def missingSignerPkg : Json :=
  .obj [
    ("added", .int 1690000000000),
    ("apkName", .str "app.apk"),
    ("hash", .str "deadbeef"),
    ("hashType", .str "sha256"),
    ("packageName", .str "org.example.app"),
    ("size", .int 1024),
    ("versionName", .str "1.0"),
    ("maxSdkVersion", .int 33),
    ("minSdkVersion", .int 21),
    ("nativecode", .arr [.str "arm64-v8a"]),
    ("sig", .str "sigvalue"),
    ("targetSdkVersion", .int 33),
    ("uses-permission", .arr [.arr [.str "android.permission.INTERNET", .int 28]]),
    ("versionCode", .int 142)]

/-- A package entry with all required fields valid whose uses-permission
array contains a pair of arity 1 (no element at index 1). -/
def badPermissionPkg : Json :=
  .obj [
    ("added", .int 1),
    ("apkName", .str "b.apk"),
    ("hash", .str "h"),
    ("hashType", .str "sha256"),
    ("packageName", .str "org.example.b"),
    ("size", .int 5),
    ("versionName", .str "2.0"),
    ("uses-permission", .arr [.arr [.str "android.permission.CAMERA"]])]

/-- A concrete full configuration document for witnesses. -/
def sampleConfigFile : ConfigFile :=
  { sdk_path := "/opt/android-sdk"
    repo_keyalias := "fdroidrepo"
    keystore := "keystore.p12"
    keystorepass := "pass1"
    keypass := "pass2"
    keydname := "CN=example"
    repo_url := some "https://old.example/repo"
    repo_name := some "Old Repo"
    repo_icon := none
    repo_description := none
    apksigner := some "/usr/bin/apksigner"
    archive_url := none
    archive_name := none
    archive_icon := none
    archive_description := none
    archive_older := some 3 }

/-- A concrete public configuration to write in witnesses. -/
def samplePublicConfig : Config :=
  { repo_url := some "https://new.example/repo"
    repo_name := some "New Repo"
    repo_icon := some "logo.png"
    repo_description := some "desc"
    archive_url := some "https://new.example/archive"
    archive_name := some "Archive"
    archive_icon := none
    archive_description := none
    archive_older := some 5 }

/-! ## Helper lemmas -/

theorem lookup_setEntry_self {α : Type} (l : List (String × α)) (k : String) (v : α) :
    lookupEntry (setEntry l k v) k = some v := by
  induction l with
  | nil => simp [setEntry, lookupEntry]
  | cons a rest ih =>
      obtain ⟨k', v'⟩ := a
      by_cases h : k' = k
      · subst h; simp [setEntry, lookupEntry]
      · simp [setEntry, lookupEntry, h, ih]

theorem lookup_eq_none_of_not_mem_keys {α : Type} (l : List (String × α)) (k : String)
    (h : k ∉ l.map Prod.fst) : lookupEntry l k = none := by
  induction l with
  | nil => rfl
  | cons a rest ih =>
      obtain ⟨k', v'⟩ := a
      simp only [List.map_cons, List.mem_cons] at h
      push_neg at h
      have hk : ¬ k' = k := fun hk => h.1 hk.symm
      simp [lookupEntry, hk, ih h.2]

theorem lookup_removeEntry_self {α : Type} (l : List (String × α)) (k : String)
    (h : (l.map Prod.fst).Nodup) : lookupEntry (removeEntry l k) k = none := by
  induction l with
  | nil => rfl
  | cons a rest ih =>
      obtain ⟨k', v'⟩ := a
      simp only [List.map_cons, List.nodup_cons] at h
      by_cases hk : k' = k
      · subst hk
        simp only [removeEntry, if_pos rfl]
        exact lookup_eq_none_of_not_mem_keys rest k' h.1
      · simp [removeEntry, lookupEntry, hk, ih h.2]

theorem removeEntry_setEntry_fresh {α : Type} (l : List (String × α)) (k : String) (v : α)
    (h : k ∉ l.map Prod.fst) : removeEntry (setEntry l k v) k = l := by
  induction l with
  | nil => simp [setEntry, removeEntry]
  | cons a rest ih =>
      obtain ⟨k', v'⟩ := a
      simp only [List.map_cons, List.mem_cons] at h
      push_neg at h
      have hk : ¬ k' = k := fun hk => h.1 hk.symm
      simp [setEntry, removeEntry, hk, ih h.2]

theorem App.parseOne_some_requiredOk {packages e : Json} {a : App}
    (h : App.parseOne packages e = some a) : appRequiredOk e := by
  simp only [App.parseOne, Option.bind_eq_some, Option.pure_def, Option.some.injEq, bind] at h
  obtain ⟨n, ⟨vn, hvn, hvn'⟩, svc, ⟨vs, hvs, hvs'⟩, lic, ⟨vl, hvl, hvl'⟩, pk, ⟨vp, hvp, hvp'⟩,
    lu, ⟨vu, hvu, hvu'⟩, ad, ⟨va, hva, hva'⟩, cats, ⟨vc, hvc, hvc'⟩, -⟩ := h
  exact ⟨by simp [hvn, hvn'], by simp [hvs, hvs'], by simp [hvl, hvl'], by simp [hvp, hvp'],
    by simp [hvu, hvu'], by simp [hva, hva'], by simp [hvc, hvc']⟩

theorem App.parseOne_eq_none (packages e : Json) (h : ¬ appRequiredOk e) :
    App.parseOne packages e = none := by
  cases hpo : App.parseOne packages e with
  | none => rfl
  | some a => exact absurd (App.parseOne_some_requiredOk hpo) h

theorem parseApps_eq_none {packages : Json} {l : List Json} {e : Json}
    (hmem : e ∈ l) (he : App.parseOne packages e = none) : parseApps packages l = none := by
  induction l with
  | nil => cases hmem
  | cons a rest ih =>
      rcases List.mem_cons.mp hmem with h | h
      · subst h; simp [parseApps, he]
      · cases hpa : App.parseOne packages a with
        | none => simp [parseApps, hpa]
        | some x => simp [parseApps, hpa, ih h]

theorem parseNativecode_total (l : List Json)
    (h : ∀ e ∈ l, (Json.as_str e).isSome = true) :
    ∃ ns, parseNativecode l = some ns := by
  induction l with
  | nil => exact ⟨[], rfl⟩
  | cons a rest ih =>
      obtain ⟨s, hs⟩ := Option.isSome_iff_exists.mp (h a (List.mem_cons_self a rest))
      obtain ⟨ns, hns⟩ := ih (fun e he => h e (List.mem_cons_of_mem a he))
      exact ⟨s :: ns, by simp [parseNativecode, hs, hns]⟩

theorem parseNativecode_some_elems {l : List Json} {ns : List String}
    (h : parseNativecode l = some ns) : ∀ e ∈ l, (Json.as_str e).isSome = true := by
  induction l generalizing ns with
  | nil => intro e he; cases he
  | cons a rest ih =>
      intro e he
      simp only [parseNativecode, Option.bind_eq_some, Option.pure_def,
        Option.some.injEq, bind] at h
      obtain ⟨s, hs, rest', hrest, -⟩ := h
      rcases List.mem_cons.mp he with rfl | hmem
      · simp [hs]
      · exact ih hrest e hmem

theorem parsePermissions_total (l : List Json)
    (h : ∀ e ∈ l, ((e.getIdx 0).bind Json.as_str).isSome = true ∧
      (e.getIdx 1).isSome = true) :
    ∃ ps, parsePermissions l = some ps := by
  induction l with
  | nil => exact ⟨[], rfl⟩
  | cons a rest ih =>
      obtain ⟨hn, hsnd⟩ := h a (List.mem_cons_self a rest)
      obtain ⟨nm, hnm⟩ := Option.isSome_iff_exists.mp hn
      obtain ⟨snd, hsnd'⟩ := Option.isSome_iff_exists.mp hsnd
      obtain ⟨ps, hps⟩ := ih (fun e he => h e (List.mem_cons_of_mem a he))
      exact ⟨(nm, snd.as_i64.bind
          (fun n => if 0 ≤ n ∧ n < 2 ^ 32 then some n.toNat else none)) :: ps,
        by simp [parsePermissions, hnm, hsnd', hps]⟩

theorem parsePermissions_some_elems {l : List Json} {ps : List (String × Option Nat)}
    (h : parsePermissions l = some ps) :
    ∀ e ∈ l, ((e.getIdx 0).bind Json.as_str).isSome = true ∧
      (e.getIdx 1).isSome = true := by
  induction l generalizing ps with
  | nil => intro e he; cases he
  | cons a rest ih =>
      intro e he
      simp only [parsePermissions, Option.bind_eq_some, Option.pure_def,
        Option.some.injEq, bind] at h
      obtain ⟨nm, ⟨v0, hv0, hv0'⟩, snd, hsnd, rest', hrest, -⟩ := h
      rcases List.mem_cons.mp he with rfl | hmem
      · exact ⟨by simp [hv0, hv0'], by simp [hsnd]⟩
      · exact ih hrest e hmem

theorem Package.from_json_some_elemsOk {w : Json} {p : Package}
    (h : Package.from_json w = some p) : ncElemsOk w ∧ permElemsOk w := by
  simp only [Package.from_json, Option.bind_eq_some, Option.pure_def,
    Option.some.injEq, bind] at h
  obtain ⟨a1, -, a2, -, a3, -, a4, -, a5, -, a6, -, a7, -, nc, hnc, perms, hperms, -⟩ := h
  exact ⟨parseNativecode_some_elems hnc, parsePermissions_some_elems hperms⟩

/-! ## Claim theorems -/

/-- C1: in add_app, when the copy into the package directory succeeds
and the subsequent update fails, the code removes the just-copied file
(restoring the pre-call package directory when no same-named file
pre-existed) but then returns Ok(()) instead of the update error: the
update error is swallowed, contradicting the claim and spec section 4.5
(the code computes update_result only to guard the compensation and
discards it). -/
theorem add_app_update_failure_returns_ok (entries : List (String × RepoEntry))
    (srcName srcContent : String) (hfresh : srcName ∉ entries.map Prod.fst) :
    Repository.add_app ⟨entries, false⟩ srcName srcContent = (.ok (), ⟨entries, false⟩) := by
  simp [Repository.add_app, updateResult, Except.isOk, Except.toBool,
    lookup_setEntry_self, removeEntry_setEntry_fresh entries srcName (.fileE srcContent) hfresh]

/-- Witness for C1's theorem at a concrete input: an empty package
directory, a failing update; add_app removes the copied file yet
reports success. -/
theorem add_app_update_failure_returns_ok_witness :
    Repository.add_app ⟨[], false⟩ "app.apk" "apkbytes" = (.ok (), ⟨[], false⟩) :=
  add_app_update_failure_returns_ok [] "app.apk" "apkbytes" (by simp)

/-- C2: on a repository whose configuration file decodes, set_config
persists exactly the merge of the old document with the public view: a
document whose seven immutable fields equal the pre-call ones and whose
mutable projection equals the written public config — a read-merge-write,
never a blind overwrite. -/
theorem set_config_read_merge_write (cf : ConfigFile) (pub : Config) (updateOk : Bool) :
    ∃ merged : ConfigFile,
      (Repository.set_config (.decoded cf) updateOk pub).2 = .decoded merged ∧
      merged.immutables = cf.immutables ∧
      Config.ofConfigFile merged = pub :=
  ⟨cf.merge_with_public pub, rfl, rfl, rfl⟩

/-- C3: a successful set_config followed by config returns exactly the
written public view, and the immutable fields read afterwards equal the
pre-write immutable snapshot. -/
theorem set_config_then_config_roundtrip (cf : ConfigFile) (pub : Config) (updateOk : Bool)
    (_hok : (Repository.set_config (.decoded cf) updateOk pub).1 = .ok ()) :
    Repository.config (Repository.set_config (.decoded cf) updateOk pub).2 = .ok pub ∧
    (Repository.get_config (Repository.set_config (.decoded cf) updateOk pub).2).map
      ConfigFile.immutables = .ok cf.immutables :=
  ⟨rfl, rfl⟩

/-- Witness for C3's theorem at the sample configuration with a
succeeding update. -/
theorem set_config_then_config_roundtrip_witness :
    (Repository.set_config (.decoded sampleConfigFile) true samplePublicConfig).1 = .ok () ∧
    (Repository.config (Repository.set_config
        (.decoded sampleConfigFile) true samplePublicConfig).2 = .ok samplePublicConfig ∧
      (Repository.get_config (Repository.set_config
          (.decoded sampleConfigFile) true samplePublicConfig).2).map
        ConfigFile.immutables = .ok sampleConfigFile.immutables) :=
  ⟨rfl, set_config_then_config_roundtrip sampleConfigFile samplePublicConfig true rfl⟩

/-- C4: if any app entry of the decoded index document is missing one of
the seven required fields or has it with the wrong primitive kind, apps
fails with the single malformed-index error (no partial App list is
produced). -/
theorem apps_fails_on_bad_required_app_field (doc appsJ e : Json) (l : List Json)
    (h1 : doc.get "apps" = some appsJ) (h2 : appsJ.as_array = some l)
    (h3 : e ∈ l) (h4 : ¬ appRequiredOk e) :
    Repository.apps (.valid doc) =
      .error (.jsonConvert "Could not map repository index file!") := by
  have hnone : App.from_json doc = none := by
    cases hp : doc.get "packages" with
    | none => simp [App.from_json, h1, hp]
    | some packages =>
        simp [App.from_json, h1, hp, h2,
          parseApps_eq_none h3 (App.parseOne_eq_none packages e h4)]
  simp [Repository.apps, hnone]

/-- Witness for C4's theorem: a document whose only app entry lacks the
license field makes apps fail wholesale. -/
theorem apps_fails_on_bad_required_app_field_witness :
    Repository.apps (.valid missingLicenseDoc) =
      .error (.jsonConvert "Could not map repository index file!") :=
  apps_fails_on_bad_required_app_field missingLicenseDoc
    (.arr [missingLicenseApp]) missingLicenseApp [missingLicenseApp]
    rfl rfl (by simp) (by decide)

/-- C5 counterexample: a package entry whose seven required fields are
all well-formed and whose only optional-field irregularity is a
nativecode array containing a non-string element makes
Package::from_json fail, refuting the claim that an optional field
present with the wrong shape never causes the parse to return an
error. -/
theorem package_from_json_bad_optional_element_fails :
    pkgRequiredOk badNativecodePkg ∧
    Package.from_json badNativecodePkg = none := by
  constructor
  · decide
  · decide

/-- C5 as amended, per optional field: whenever the required fields
parse and the elements of the (possibly defaulted-to-empty) optional
arrays are well-typed, Package::from_json succeeds, and each individual
optional field that is absent or present with the wrong shape is mapped
to its absent value (None for the scalar fields, the empty list for
nativecode and uses-permission) independently of the other optional
fields; conversely, a present optional array containing an ill-typed
element (a non-string nativecode entry, or a uses-permission pair
without a string at index 0 or nothing at index 1) makes the whole parse
fail for any package entry. -/
theorem package_from_json_optional_field_policy (v : Json)
    (hreq : pkgRequiredOk v) (hnc : ncElemsOk v) (hperm : permElemsOk v) :
    (∃ p, Package.from_json v = some p ∧
      (optU32 v "maxSdkVersion" = none → p.max_sdk_version = none) ∧
      (optU32 v "minSdkVersion" = none → p.min_sdk_version = none) ∧
      ((v.get "sig").bind Json.as_str = none → p.sig = none) ∧
      ((v.get "signer").bind Json.as_str = none → p.signer = none) ∧
      (optU32 v "targetSdkVersion" = none → p.target_sdk_version = none) ∧
      ((v.get "versionCode").bind Json.as_u64 = none → p.version_code = none) ∧
      ((v.get "nativecode").bind Json.as_array = none → p.nativecode = []) ∧
      (((v.get "uses-permission").getD Json.null).as_array = none →
        p.uses_permission = [])) ∧
    (∀ w : Json, ¬ ncElemsOk w → Package.from_json w = none) ∧
    (∀ w : Json, ¬ permElemsOk w → Package.from_json w = none) := by
  refine ⟨?_, fun w hw => ?_, fun w hw => ?_⟩
  · obtain ⟨hs1, hs2, hs3, hs4, hs5, hs6, hs7⟩ := hreq
    rw [Option.isSome_iff_exists] at hs1 hs2 hs3 hs4 hs5 hs6 hs7
    obtain ⟨a1, h1⟩ := hs1
    obtain ⟨a2, h2⟩ := hs2
    obtain ⟨a3, h3⟩ := hs3
    obtain ⟨a4, h4⟩ := hs4
    obtain ⟨a5, h5⟩ := hs5
    obtain ⟨a6, h6⟩ := hs6
    obtain ⟨a7, h7⟩ := hs7
    obtain ⟨nc, hncEq⟩ := parseNativecode_total _ hnc
    obtain ⟨perms, hpermEq⟩ := parsePermissions_total _ hperm
    refine ⟨{ added := a1
              apk_name := a2
              hash := a3
              hash_type := a4
              package_name := a5
              size := a6
              version_name := a7
              nativecode := nc
              max_sdk_version := optU32 v "maxSdkVersion"
              min_sdk_version := optU32 v "minSdkVersion"
              sig := (v.get "sig").bind Json.as_str
              signer := (v.get "signer").bind Json.as_str
              target_sdk_version := optU32 v "targetSdkVersion"
              uses_permission := perms
              version_code := (v.get "versionCode").bind Json.as_u64 },
      ?_, fun h => h, fun h => h, fun h => h, fun h => h, fun h => h, fun h => h,
      fun h => ?_, fun h => ?_⟩
    · simp [Package.from_json, h1, h2, h3, h4, h5, h6, h7, hncEq, hpermEq]
    · rw [h] at hncEq
      simp only [Option.getD_none, parseNativecode, Option.some.injEq] at hncEq
      exact hncEq.symm
    · rw [h] at hpermEq
      simp only [Option.getD_none, parsePermissions, Option.some.injEq] at hpermEq
      exact hpermEq.symm
  · cases hfj : Package.from_json w with
    | none => rfl
    | some p => exact absurd (Package.from_json_some_elemsOk hfj).1 hw
  · cases hfj : Package.from_json w with
    | none => rfl
    | some p => exact absurd (Package.from_json_some_elemsOk hfj).2 hw

/-- Witness for the amended C5 theorem: a package entry with signer
absent but every other optional field present and valid parses with
signer mapped to None, and a package entry whose uses-permission array
contains a 1-element pair fails to parse. -/
theorem package_from_json_optional_field_policy_witness :
    (∃ p, Package.from_json missingSignerPkg = some p ∧ p.signer = none) ∧
    Package.from_json badPermissionPkg = none := by
  obtain ⟨⟨p, hp, -, -, -, hsignerI, -, -, -, -⟩, -, hpermFail⟩ :=
    package_from_json_optional_field_policy missingSignerPkg
      (by decide) (by decide) (by decide)
  exact ⟨⟨p, hp, hsignerI (by decide)⟩, hpermFail badPermissionPkg (by decide)⟩

/-- C6: when the index file does not exist, apps returns Ok with the
empty App list, not an error. -/
theorem apps_absent_index_is_empty_ok :
    Repository.apps IndexFile.absent = .ok ([] : List App) := rfl

/-- C7: delete_app on a missing entry is an Ok no-op leaving the state
unchanged; on an entry that is not a regular file it fails with the
NotAFile error and deletes nothing; on a regular file it removes the
file and returns the update outcome, and a failed update does not re-add
the removed file (under unique file names it stays absent). -/
theorem delete_app_cases (entries : List (String × RepoEntry)) (updateOk : Bool)
    (name : String) :
    (lookupEntry entries name = none →
      Repository.delete_app ⟨entries, updateOk⟩ name = (.ok (), ⟨entries, updateOk⟩)) ∧
    (lookupEntry entries name = some .dirE →
      Repository.delete_app ⟨entries, updateOk⟩ name =
        (.error (.notAFile ["repo", name]), ⟨entries, updateOk⟩)) ∧
    (∀ c, lookupEntry entries name = some (.fileE c) →
      (Repository.delete_app ⟨entries, updateOk⟩ name).2.repoEntries =
        removeEntry entries name ∧
      (Repository.delete_app ⟨entries, updateOk⟩ name).1 =
        (if updateOk then .ok () else .error .update) ∧
      ((entries.map Prod.fst).Nodup →
        lookupEntry (Repository.delete_app ⟨entries, updateOk⟩ name).2.repoEntries name =
          none)) := by
  refine ⟨fun h => ?_, fun h => ?_, fun c h => ?_⟩
  · simp [Repository.delete_app, h]
  · simp [Repository.delete_app, h]
  · refine ⟨by simp [Repository.delete_app, h], by simp [Repository.delete_app, h, updateResult],
      fun hnd => ?_⟩
    simp [Repository.delete_app, h, lookup_removeEntry_self entries name hnd]

/-- Witness for C7's theorem: deleting an existing regular file with a
failing update removes the file, surfaces the update error, and does not
re-add the file. -/
theorem delete_app_cases_witness :
    (Repository.delete_app ⟨[("a.apk", .fileE "x"), ("d", .dirE)], false⟩ "a.apk").2.repoEntries =
      removeEntry [("a.apk", RepoEntry.fileE "x"), ("d", RepoEntry.dirE)] "a.apk" ∧
    (Repository.delete_app ⟨[("a.apk", .fileE "x"), ("d", .dirE)], false⟩ "a.apk").1 =
      .error .update ∧
    lookupEntry (Repository.delete_app
      ⟨[("a.apk", .fileE "x"), ("d", .dirE)], false⟩ "a.apk").2.repoEntries "a.apk" = none := by
  have h := (delete_app_cases [("a.apk", .fileE "x"), ("d", .dirE)] false "a.apk").2.2
    "x" (by decide)
  exact ⟨h.1, h.2.1, h.2.2 (by decide)⟩

/-- C8: with a decodable configuration and extensions on both the new
image and the configured icon (icon.png, hence png, when none is
configured), set_image fails on an extension mismatch with the
invalid-file error naming the expected extension and leaves the state
(including the existing icon file) unchanged, and on a match copies the
new file over the icon path, overwriting it. -/
theorem set_image_extension_policy (cf : ConfigFile) (icons : List (String × String))
    (newName newContent : String) (e1 e2 : String)
    (h1 : rustExtension newName = some e1)
    (h2 : rustExtension (iconName cf) = some e2) :
    (cf.repo_icon = none → iconName cf = "icon.png") ∧
    (e1 ≠ e2 →
      Repository.set_image ⟨.decoded cf, icons⟩ newName newContent =
        (.error (.invalidFile ⟨some (extensionReason e2), [newName]⟩),
          ⟨.decoded cf, icons⟩)) ∧
    (e1 = e2 →
      (Repository.set_image ⟨.decoded cf, icons⟩ newName newContent).1 = .ok () ∧
      (Repository.set_image ⟨.decoded cf, icons⟩ newName newContent).2.icons =
        setEntry icons (iconName cf) newContent ∧
      lookupEntry (Repository.set_image ⟨.decoded cf, icons⟩ newName newContent).2.icons
        (iconName cf) = some newContent) := by
  refine ⟨fun h => by simp [iconName, h], fun hne => ?_, fun heq => ?_⟩
  · simp [Repository.set_image, Repository.get_config, h1, h2, hne]
  · subst heq
    exact ⟨by simp [Repository.set_image, Repository.get_config, h1, h2],
      by simp [Repository.set_image, Repository.get_config, h1, h2],
      by simp [Repository.set_image, Repository.get_config, h1, h2, lookup_setEntry_self]⟩

/-- Witness for C8's theorem: with no icon configured (so icon.png and
expected extension png), uploading new.jpg fails with the invalid-file
error naming png and leaves the old icon bytes in place. -/
theorem set_image_extension_policy_witness :
    Repository.set_image ⟨.decoded sampleConfigFile, [("icon.png", "OLDBYTES")]⟩
        "new.jpg" "NEWBYTES" =
      (.error (.invalidFile ⟨some (extensionReason "png"), ["new.jpg"]⟩),
        ⟨.decoded sampleConfigFile, [("icon.png", "OLDBYTES")]⟩) :=
  (set_image_extension_policy sampleConfigFile [("icon.png", "OLDBYTES")]
    "new.jpg" "NEWBYTES" "jpg" "png" rfl rfl).2.1 (by decide)

/-- C9 counterexample: the package-directory, metadata-directory and
configuration-file resolvers are pure joins that never inspect the disk:
with repo and metadata existing as regular files and config.yml existing
as a directory (the wrong kinds), resolution still returns Ok rather
than failing with a wrong-entry-kind error, refuting the claim for every
resolved path except the unsigned-intake directory. -/
theorem path_resolvers_no_kind_check :
    repoPathResolved .fileE = .ok ["repo"] ∧
    metadataPathResolved .fileE = .ok ["metadata"] ∧
    configPathResolved .dirE = .ok ["config.yml"] :=
  ⟨rfl, rfl, rfl⟩

/-- C9 as amended: only the unsigned-intake resolver validates the
entry kind — an existing directory is returned unchanged, an existing
non-directory fails with the NotADirectory error without side effects,
and an absent entry is created (the single side effect); the package
directory, metadata directory and configuration file resolvers are pure
joins that never fail whatever is on disk. -/
theorem unsigned_path_kind_validation :
    Repository.unsigned_path .dirE = (.ok ["unsigned"], .dirE, false) ∧
    Repository.unsigned_path .fileE =
      (.error (.notADirectory ["unsigned"]), .fileE, false) ∧
    Repository.unsigned_path .absentE = (.ok ["unsigned"], .dirE, true) ∧
    ∀ e, repoPathResolved e = .ok Repository.repo_path ∧
      metadataPathResolved e = .ok Repository.metadata_path ∧
      configPathResolved e = .ok Repository.config_path :=
  ⟨rfl, rfl, rfl, fun _ => ⟨rfl, rfl, rfl⟩⟩

/-- C10: when the root is an existing directory and config.yml already
exists, Repository::new returns the handle having run no external
command (and hence performed no filesystem write); the initialize and
update steps run only when the configuration file is absent. -/
theorem new_with_existing_config_is_pure (st : NewState)
    (hdir : st.rootIsDir = true) (hcfg : st.configExists = true) :
    Repository.new st = (.ok (), ([] : List String)) := by
  simp [Repository.new, hdir, hcfg]

/-- Witness for C10's theorem: a root directory with an existing
config.yml, where every external command would fail, still yields the
handle with an empty command trace. -/
theorem new_with_existing_config_is_pure_witness :
    Repository.new ⟨true, true, false, false, false⟩ = (.ok (), ([] : List String)) :=
  new_with_existing_config_is_pure ⟨true, true, false, false, false⟩ rfl rfl
